import Mathlib

/-!
# Shallow embedding of the wiki-elasticsearch search service

The repository exposes keyword search over a wiki corpus indexed in
Elasticsearch, through two FastAPI endpoints (`src/api/main.py`:
`/search` and `/search_file_list`) and one Flask endpoint
(`src/crawler/search.py`: `/search`).

Python strings are modelled as `List Char`; Python `dict`-shaped
Elasticsearch hits are modelled by the `Hit` structure with `Option`
fields for the parts the code accesses defensively.  Relevance scores
(floats in Elasticsearch) are modelled as integers: every property
verified here depends only on the linear order of scores.  The external
Elasticsearch collaborator is modelled as a function from the query the
code builds to a response (or a failure), so that "no call is made" is
expressible as independence from the collaborator.
-/

namespace WikiSearch

/-- Python strings, modelled as lists of characters. -/
abbrev Str := List Char

/-- Conversion from Lean string literals, used for concrete test inputs. -/
def strOf (s : String) : Str := s.toList

/-- Python `str.lower` (ASCII case folding suffices for the corpus modelled). -/
def lowerStr (s : Str) : Str := s.map Char.toLower

/-- Python's `needle in hay` substring test. -/
def isSubstr (needle hay : Str) : Bool :=
  hay.tails.any (fun t => needle.isPrefixOf t)

/-- Helper for `splitLines`: accumulates the current line (reversed). -/
def splitLinesAux : List Char → List Char → List (List Char)
  | [], acc => if acc.isEmpty then [] else [acc.reverse]
  | '\r' :: '\n' :: rest, acc => acc.reverse :: splitLinesAux rest []
  | '\n' :: rest, acc => acc.reverse :: splitLinesAux rest []
  | '\r' :: rest, acc => acc.reverse :: splitLinesAux rest []
  | c :: rest, acc => splitLinesAux rest (c :: acc)

/-- Python `str.splitlines`: no trailing empty line, `""` gives `[]`. -/
def splitLines (s : Str) : List Str := splitLinesAux s []

/-- The content strictly before the first `]]` in the input, if any:
the non-greedy part of the regex `\[\[(.*?)\]\]` in `parse_wiki_body`. -/
def untilClose : List Char → Option (List Char)
  | ']' :: ']' :: _ => some []
  | c :: rest => (untilClose rest).map (fun t => c :: t)
  | [] => none

/-- `re.search` of the pattern `\[\[(.*?)\]\]`: the group of the leftmost
match.  A match starts at the leftmost `[[` that is followed by a `]]`;
if no `]]` occurs after the first `[[` then no later `[[` can be
followed by one either, so the search fails. -/
def searchBracket : List Char → Option (List Char)
  | '[' :: '[' :: rest => untilClose rest
  | _ :: rest => searchBracket rest
  | [] => none

/-- `if page_title not in results: results.append(page_title)`
(`src/api/main.py` lines 74-75 and 120-122). -/
def insertDedup (results : List Str) (x : Str) : List Str :=
  if x ∈ results then results else results ++ [x]

/-- The per-line step of `parse_wiki_body`: the keyword test
`keyword.lower() in line.lower()` followed by the regex search,
as a single partial extraction function. -/
def lineTitle (keyword line : Str) : Option Str :=
  if isSubstr (lowerStr keyword) (lowerStr line) then searchBracket line else none

/-- The loop body of `parse_wiki_body` (`src/api/main.py` lines 67-75). -/
def parseStep (keyword : Str) (results : List Str) (line : Str) : List Str :=
  match lineTitle keyword line with
  | some title => insertDedup results title
  | none => results

/-- `parse_wiki_body` (`src/api/main.py` lines 52-76): for every line of
the body containing the keyword case-insensitively, take the group of the
first `[[...]]` token, skipping titles already collected. -/
def parse_wiki_body (body_text keyword : Str) : List Str :=
  (splitLines body_text).foldl (parseStep keyword) []

/-- The `body` field of a hit's `_source`: either a single string or a
list of strings. -/
inductive BodyField where
  | str (s : Str)
  | arr (lines : List Str)
deriving DecidableEq

/-- One Elasticsearch hit, with the fields the endpoints read.
`none` models an absent (or JSON-null) field. -/
structure Hit where
  id : Str
  score : Option Int := none
  body : Option BodyField := none
  title : Option Str := none
  title_url_encoded : Option Str := none
  modified : Option Str := none
  highlight_body : Option (List Str) := none
deriving DecidableEq

/-- Python `sep.join(parts)`. -/
def pyJoin (sep : Str) : List Str → Str
  | [] => []
  | [x] => x
  | x :: xs => x ++ sep ++ pyJoin sep xs

/-- `"\n".join(body) if isinstance(body, list) else body`
(`src/api/main.py` lines 115 and 158-161). -/
def bodyContent : BodyField → Str
  | .str s => s
  | .arr l => pyJoin ['\n'] l

/-- The pages one hit contributes in `/search`: nothing when `_source`
has no `body` key (`src/api/main.py` lines 112-117). -/
def hitPages (q : Str) (h : Hit) : List Str :=
  match h.body with
  | none => []
  | some b => parse_wiki_body (bodyContent b) q

/-- The aggregation loop of `/search` (`src/api/main.py` lines 110-122):
pages of each hit in response order, first occurrence of a title wins. -/
def aggregatePages (hits : List Hit) (q : Str) : List Str :=
  hits.foldl (fun all h => (hitPages q h).foldl insertDedup all) []

/-- Flatten-then-deduplicate characterisation used to state what the
aggregation loop computes: keep the first occurrence of each string. -/
def firstSeenDedup (l : List Str) : List Str := l.foldl insertDedup []

/-- `hit['_source'].get('body', '')` then list-join
(`src/api/main.py` lines 157-161). -/
def fileBodyText (h : Hit) : Str :=
  match h.body with
  | none => []
  | some b => bodyContent b

/-- Python whitespace test used by `str.split()`. -/
def isPySpace (c : Char) : Bool :=
  c = ' ' || c = '\t' || c = '\n' || c = '\r' || c = '\x0b' || c = '\x0c'

/-- Helper for `pySplit`: accumulates the current word (reversed). -/
def pySplitAux : List Char → List Char → List Str
  | [], acc => if acc.isEmpty then [] else [acc.reverse]
  | c :: rest, acc =>
    if isPySpace c then
      if acc.isEmpty then pySplitAux rest [] else acc.reverse :: pySplitAux rest []
    else pySplitAux rest (c :: acc)

/-- Python `str.split()` with no argument: split on whitespace runs,
discarding empty words. -/
def pySplit (s : Str) : List Str := pySplitAux s []

/-- Helper for `pyCount`: number of non-overlapping occurrences of the
non-empty needle `n :: ns`, scanning left to right and skipping past
each match, exactly as Python `str.count`.  The first argument is the
number of characters of the current match still to be skipped, so that
the recursion is structural on the haystack. -/
def countFrom (n : Char) (ns : List Char) : Nat → List Char → Nat
  | _, [] => 0
  | k + 1, _ :: rest => countFrom n ns k rest
  | 0, c :: rest =>
    if (n :: ns).isPrefixOf (c :: rest) then
      1 + countFrom n ns ns.length rest
    else
      countFrom n ns 0 rest

/-- Python `hay.count(needle)`: non-overlapping substring occurrences
(`len(hay) + 1` when the needle is empty, as in Python). -/
def pyCount (hay needle : Str) : Nat :=
  match needle with
  | [] => hay.length + 1
  | n :: ns => countFrom n ns 0 hay

/-- `sum(body_text.lower().count(word.lower()) for word in q.split())`
(`src/api/main.py` line 163). -/
def occCount (body_text q : Str) : Nat :=
  ((pySplit q).map (fun word => pyCount (lowerStr body_text) (lowerStr word))).sum

/-- One entry of the `/search_file_list` result. -/
structure RankedEntry where
  id : Str
  title : Str
  count : Nat
  score : Int
deriving DecidableEq

/-- `hit['_source'].get('title') or hit["_id"]` (`src/api/main.py`
line 164): Python `or` falls through on `None` and on the empty string. -/
def displayTitle (h : Hit) : Str :=
  match h.title with
  | some t => if t.isEmpty then h.id else t
  | none => h.id

/-- The dict appended per hit in `/search_file_list`
(`src/api/main.py` lines 162-170); `hit.get("_score", 0)`. -/
def fileEntry (q : Str) (h : Hit) : RankedEntry :=
  { id := h.id
    title := displayTitle h
    count := occCount (fileBodyText h) q
    score := h.score.getD 0 }

/-- The unsorted `results` list of `/search_file_list`. -/
def fileEntries (hits : List Hit) (q : Str) : List RankedEntry :=
  hits.map (fileEntry q)

/-- The comparator of `sorted(results, key=lambda x: (x["score"],
x["count"]), reverse=True)`: `a` may precede `b` iff the key of `a` is
lexicographically at least the key of `b`. -/
def rankLE (a b : RankedEntry) : Bool :=
  decide (b.score < a.score ∨ (b.score = a.score ∧ b.count ≤ a.count))

/-- The sort key `(x["score"], x["count"])`. -/
def rankKey (e : RankedEntry) : Int × Nat := (e.score, e.count)

/-- `sorted(..., reverse=True)` of `/search_file_list`
(`src/api/main.py` line 172).  Python's sort is stable; a stable sort is
determined uniquely by the comparator, so `List.mergeSort` embeds it
faithfully. -/
def search_file_list_results (hits : List Hit) (q : Str) : List RankedEntry :=
  (fileEntries hits q).mergeSort rankLE

/-- The error responses the three endpoints can produce. -/
inductive ApiError where
  | serviceUnavailable
  | badRequest
  | internalError (msg : Str)
deriving DecidableEq

/-- The search request body the endpoints build for Elasticsearch. -/
structure EsQuery where
  fields : List Str
  keyword : Str
  operator : Str
  size : Nat
  highlight : Bool
  source_filter : List Str
deriving DecidableEq

/-- The query of `/search` in `src/api/main.py` (lines 96-106). -/
def wikiQuery (q : Str) : EsQuery :=
  { fields := [strOf "body"], keyword := q, operator := strOf "and",
    size := 10, highlight := false, source_filter := [] }

/-- The query of `/search_file_list` in `src/api/main.py` (lines 143-153). -/
def fileListQuery (q : Str) : EsQuery :=
  { fields := [strOf "body"], keyword := q, operator := strOf "and",
    size := 100, highlight := false, source_filter := [] }

/-- The query of `/search` in `src/crawler/search.py` (lines 44-64). -/
def crawlerQuery (q : Str) : EsQuery :=
  { fields := [strOf "title", strOf "body"], keyword := q,
    operator := strOf "and", size := 20, highlight := true,
    source_filter := [strOf "title", strOf "title_url_encoded", strOf "modified"] }

/-- An Elasticsearch search response (`hits.hits` and `hits.total.value`). -/
structure EsResponse where
  hits : List Hit
  total : Nat
deriving DecidableEq

/-- The Elasticsearch collaborator: a function from the query the code
sends to a response, or a failure message (an exception in the code). -/
abbrev Engine := EsQuery → Except Str EsResponse

/-- The body of a `/search` (page-title mode) success response. -/
structure PageResponse where
  query : Str
  results : List Str
deriving DecidableEq

/-- The `/search` endpoint of `src/api/main.py` (lines 79-128):
503 when the client is absent, 400 when `q` is missing or empty,
500 when the collaborator call raises, otherwise the aggregated pages. -/
def search_wiki (es : Option Engine) (q : Option Str) : Except ApiError PageResponse :=
  match es with
  | none => .error .serviceUnavailable
  | some engine =>
    let qv := q.getD []
    if qv.isEmpty then .error .badRequest
    else
      match engine (wikiQuery qv) with
      | .error e => .error (.internalError e)
      | .ok resp => .ok { query := qv, results := aggregatePages resp.hits qv }

/-- The body of a `/search_file_list` success response. -/
structure FileListResponse where
  query : Str
  total : Nat
  results : List RankedEntry
deriving DecidableEq

/-- The `/search_file_list` endpoint of `src/api/main.py` (lines 130-179). -/
def search_file_list (es : Option Engine) (q : Str) : Except ApiError FileListResponse :=
  match es with
  | none => .error .serviceUnavailable
  | some engine =>
    if q.isEmpty then .error .badRequest
    else
      match engine (fileListQuery q) with
      | .error e => .error (.internalError e)
      | .ok resp =>
        let sorted_results := search_file_list_results resp.hits q
        .ok { query := q, total := sorted_results.length, results := sorted_results }

/-- One formatted hit of the crawler's `/search` response. -/
structure SnippetHit where
  id : Str
  title : Option Str
  url_title : Option Str
  modified : Option Str
  snippet : Str
deriving DecidableEq

/-- `" ... ".join(highlight) if highlight else ""`
(`src/crawler/search.py` line 79). -/
def snippetOf (highlight : List Str) : Str :=
  if highlight.isEmpty then [] else pyJoin (strOf " ... ") highlight

/-- The per-hit formatting of the crawler's `/search`
(`src/crawler/search.py` lines 74-87); `hit.get("highlight",
{}).get("body", [])` is the `getD []`. -/
def formatHit (h : Hit) : SnippetHit :=
  { id := h.id, title := h.title, url_title := h.title_url_encoded,
    modified := h.modified, snippet := snippetOf (h.highlight_body.getD []) }

/-- The body of a crawler `/search` success response. -/
structure CrawlerResponse where
  total : Nat
  hits : List SnippetHit
deriving DecidableEq

/-- The `/search` endpoint of `src/crawler/search.py` (lines 29-98):
503 when the client is absent, 400 when `q` is missing or empty
(`request.args.get('q', '')` then `if not keyword`), 500 when the
collaborator call raises. -/
def crawler_search (client : Option Engine) (q : Option Str) : Except ApiError CrawlerResponse :=
  match client with
  | none => .error .serviceUnavailable
  | some engine =>
    let keyword := q.getD []
    if keyword.isEmpty then .error .badRequest
    else
      match engine (crawlerQuery keyword) with
      | .error e => .error (.internalError e)
      | .ok resp => .ok { total := resp.total, hits := resp.hits.map formatHit }

/-! Concrete fixtures used to exercise the definitions on the examples
of the specification. -/

/-- A hit whose body mentions the keyword `wiki` three times. -/
def hitWiki3 : Hit :=
  { id := strOf "1", score := some 2, body := some (.str (strOf "wiki wiki wiki")) }

/-- A hit whose body mentions the keyword `wiki` once. -/
def hitWiki1 : Hit :=
  { id := strOf "2", score := some 2, body := some (.str (strOf "wiki")) }

/-- A hit whose body is the string `aaa`. -/
def hitAaa : Hit :=
  { id := strOf "3", score := some 1, body := some (.str (strOf "aaa")) }

/-- A hit whose `_source` has no `body` field. -/
def hitNoBody : Hit := { id := strOf "4", score := some 1 }

/-- A hit with no `highlight` block. -/
def hitNoHighlight : Hit := { id := strOf "5" }

/-- A hit whose `_source` carries a `title` field holding the empty
string, next to id `X`. -/
def hitEmptyTitle : Hit :=
  { id := strOf "X", score := some 1, body := some (.str (strOf "wiki")),
    title := some [] }

/-- A hit carrying a non-empty `title` field. -/
def hitTitled : Hit := { id := strOf "6", title := some (strOf "T") }

/-- A collaborator that answers every query with an empty result set. -/
def trivialEngine : Engine := fun _ => .ok { hits := [], total := 0 }

/-- A collaborator that always fails, used to show that endpoints
rejecting a request never consult the collaborator. -/
def failingEngine : Engine := fun _ => .error (strOf "down")

/-! ## Helper lemmas -/

theorem foldl_parseStep_append (K : Str) :
    ∀ (lines : List Str) (acc : List Str),
      ∃ l', lines.foldl (parseStep K) acc = acc ++ l'
        ∧ List.Sublist l' (lines.filterMap (lineTitle K)) := by
  intro lines
  induction lines with
  | nil => intro acc; exact ⟨[], by simp, by simp⟩
  | cons line rest ih =>
    intro acc
    rw [List.foldl_cons, List.filterMap_cons]
    cases hlt : lineTitle K line with
    | none =>
      obtain ⟨l', h1, h2⟩ := ih acc
      refine ⟨l', ?_, h2⟩
      simpa only [parseStep, hlt] using h1
    | some t =>
      by_cases hmem : t ∈ acc
      · obtain ⟨l', h1, h2⟩ := ih acc
        refine ⟨l', ?_, h2.cons t⟩
        simpa only [parseStep, hlt, insertDedup, if_pos hmem] using h1
      · obtain ⟨l', h1, h2⟩ := ih (acc ++ [t])
        refine ⟨t :: l', ?_, h2.cons₂ t⟩
        have hstep : parseStep K acc line = acc ++ [t] := by
          simp only [parseStep, hlt, insertDedup, if_neg hmem]
        rw [hstep, h1, List.append_assoc, List.singleton_append]

theorem nodup_insertDedup {acc : List Str} {x : Str} (h : acc.Nodup) :
    (insertDedup acc x).Nodup := by
  rw [insertDedup]
  split
  · exact h
  · rename_i hmem
    rw [List.nodup_append]
    refine ⟨h, List.nodup_singleton x, ?_⟩
    intro a ha hax
    simp only [List.mem_singleton] at hax
    exact hmem (hax ▸ ha)

theorem nodup_foldl_insertDedup :
    ∀ (l : List Str) (acc : List Str), acc.Nodup → (l.foldl insertDedup acc).Nodup := by
  intro l
  induction l with
  | nil => intro acc h; simpa using h
  | cons x rest ih =>
    intro acc h
    rw [List.foldl_cons]
    exact ih _ (nodup_insertDedup h)

theorem nodup_foldl_parseStep (K : Str) :
    ∀ (lines : List Str) (acc : List Str), acc.Nodup →
      (lines.foldl (parseStep K) acc).Nodup := by
  intro lines
  induction lines with
  | nil => intro acc h; simpa using h
  | cons line rest ih =>
    intro acc h
    rw [List.foldl_cons]
    refine ih _ ?_
    rw [parseStep]
    split
    · exact nodup_insertDedup h
    · exact h

theorem foldl_hits_eq_flatMap (q : Str) :
    ∀ (hits : List Hit) (acc : List Str),
      hits.foldl (fun all h => (hitPages q h).foldl insertDedup all) acc
        = (hits.flatMap (hitPages q)).foldl insertDedup acc := by
  intro hits
  induction hits with
  | nil => intro acc; simp
  | cons h rest ih =>
    intro acc
    rw [List.foldl_cons, List.flatMap_cons, List.foldl_append]
    exact ih _

/-! ## Claim theorems -/

/-- C1: every title returned by `parse_wiki_body` comes from a line of
the body that contains the keyword case-insensitively and carries a
`[[...]]` token, the title taken from such a line is exactly the group
of the first non-greedy bracket token there (`lineTitle`), a matching
line with no bracket token contributes nothing, and at most one title is
taken per matching line: the result is a sublist of the per-line
extraction over the split body. -/
theorem parse_wiki_body_sublist_lineTitles (B K : Str) :
    List.Sublist (parse_wiki_body B K) ((splitLines B).filterMap (lineTitle K)) := by
  obtain ⟨l', h1, h2⟩ := foldl_parseStep_append K (splitLines B) []
  have : parse_wiki_body B K = l' := by
    rw [parse_wiki_body, h1, List.nil_append]
  rw [this]
  exact h2

/-- C9: the list returned by `parse_wiki_body` itself never contains
duplicates — deduplication already happens within a single body's
extraction — so a title occurring on two different matching lines of the
same body is returned once. -/
theorem parse_wiki_body_nodup :
    (∀ B K, (parse_wiki_body B K).Nodup)
    ∧ parse_wiki_body (strOf "wiki [[A]]\nwiki [[A]]") (strOf "wiki") = [strOf "A"] :=
  ⟨fun B K => nodup_foldl_parseStep K (splitLines B) [] List.nodup_nil, by decide⟩

/-- C3: the aggregated page-title list of `/search` has no duplicate
titles, and each title's position is determined by its first discovery:
the loop computes exactly the first-occurrence deduplication of the
per-hit page lists concatenated in search-engine response order (within
a hit, `parse_wiki_body` scans lines top to bottom). -/
theorem aggregatePages_firstSeenDedup_nodup (hits : List Hit) (q : Str) :
    aggregatePages hits q = firstSeenDedup (hits.flatMap (hitPages q))
    ∧ (aggregatePages hits q).Nodup := by
  have he : aggregatePages hits q = firstSeenDedup (hits.flatMap (hitPages q)) :=
    foldl_hits_eq_flatMap q hits []
  exact ⟨he, he ▸ nodup_foldl_insertDedup _ [] List.nodup_nil⟩

theorem rankLE_trans : ∀ a b c : RankedEntry, rankLE a b → rankLE b c → rankLE a c := by
  intro a b c hab hbc
  simp only [rankLE, decide_eq_true_eq] at hab hbc ⊢
  omega

theorem rankLE_total : ∀ a b : RankedEntry, rankLE a b || rankLE b a := by
  intro a b
  simp only [rankLE, Bool.or_eq_true, decide_eq_true_eq]
  omega

theorem rankLE_of_rankKey_eq {a b : RankedEntry} (h : rankKey a = rankKey b) :
    rankLE a b := by
  simp only [rankKey, Prod.mk.injEq] at h
  simp only [rankLE, decide_eq_true_eq]
  omega

theorem mergeSort_rankLE_filter_key (entries : List RankedEntry) (k : Int × Nat) :
    (entries.mergeSort rankLE).filter (fun e => decide (rankKey e = k))
      = entries.filter (fun e => decide (rankKey e = k)) := by
  have hpair : (entries.filter (fun e => decide (rankKey e = k))).Pairwise
      (fun a b => rankLE a b = true) := by
    refine List.pairwise_of_forall_mem_list ?_
    intro a ha b hb
    have ha' : rankKey a = k := by simpa using (List.mem_filter.mp ha).2
    have hb' : rankKey b = k := by simpa using (List.mem_filter.mp hb).2
    exact rankLE_of_rankKey_eq (ha'.trans hb'.symm)
  have hsub : List.Sublist (entries.filter (fun e => decide (rankKey e = k)))
      (entries.mergeSort rankLE) :=
    List.sublist_mergeSort rankLE_trans rankLE_total hpair (List.filter_sublist entries)
  have hself : (entries.filter (fun e => decide (rankKey e = k))).filter
      (fun e => decide (rankKey e = k)) = entries.filter (fun e => decide (rankKey e = k)) := by
    rw [List.filter_eq_self]
    intro a ha
    exact (List.mem_filter.mp ha).2
  have hsubf : List.Sublist (entries.filter (fun e => decide (rankKey e = k)))
      ((entries.mergeSort rankLE).filter (fun e => decide (rankKey e = k))) := by
    have := hsub.filter (fun e => decide (rankKey e = k))
    rwa [hself] at this
  have hlen : ((entries.mergeSort rankLE).filter (fun e => decide (rankKey e = k))).length
      = (entries.filter (fun e => decide (rankKey e = k))).length :=
    ((List.mergeSort_perm entries rankLE).filter (fun e => decide (rankKey e = k))).length_eq
  exact (hsubf.eq_of_length hlen.symm).symm

/-- C2: `/search_file_list` returns the hit entries sorted in descending
lexicographic order by `(score, count)` (`rankLE`), as a permutation of
the entries built from the search-engine response, and the sort is
stable: for every key, the subsequence of entries carrying that
`(score, count)` key is exactly the one of the input, in input order. -/
theorem search_file_list_sorted_stable (hits : List Hit) (q : Str) :
    (search_file_list_results hits q).Pairwise (fun a b => rankLE a b = true)
    ∧ (search_file_list_results hits q).Perm (fileEntries hits q)
    ∧ ∀ k : Int × Nat,
        (search_file_list_results hits q).filter (fun e => decide (rankKey e = k))
          = (fileEntries hits q).filter (fun e => decide (rankKey e = k)) :=
  ⟨List.sorted_mergeSort rankLE_trans rankLE_total _,
   List.mergeSort_perm _ _,
   fun k => mergeSort_rankLE_filter_key _ k⟩

theorem countFrom_mul_le (n : Char) (ns : List Char) :
    ∀ (l : List Char) (k : Nat),
      countFrom n ns k l * (ns.length + 1) + min k l.length ≤ l.length := by
  intro l
  induction l with
  | nil => intro k; simp [countFrom]
  | cons c rest ih =>
    intro k
    cases k with
    | succ k' =>
      have h2 := ih k'
      simp only [countFrom, List.length_cons]
      omega
    | zero =>
      by_cases hpre : (n :: ns).isPrefixOf (c :: rest)
      · have hlen : ns.length ≤ rest.length := by
          have hp := List.isPrefixOf_iff_prefix.mp hpre
          have := hp.length_le
          simpa using this
        have h2 := ih ns.length
        simp only [countFrom, hpre, if_true, List.length_cons]
        have hexp : (1 + countFrom n ns ns.length rest) * (ns.length + 1)
            = (ns.length + 1) + countFrom n ns ns.length rest * (ns.length + 1) := by
          rw [Nat.add_mul, Nat.one_mul]
        omega
      · have h2 := ih 0
        rw [Bool.not_eq_true] at hpre
        simp only [countFrom, hpre, Bool.false_eq_true, if_false, List.length_cons]
        omega

/-- C10: the per-term substring count used by the ranker counts
non-overlapping occurrences only: each counted occurrence consumes the
needle's full length of the haystack, and for the term `aa` in the body
`aaa` the contribution is 1, not 2. -/
theorem pyCount_nonoverlapping :
    (∀ (hay : Str) (n : Char) (ns : List Char),
        pyCount hay (n :: ns) * (n :: ns).length ≤ hay.length)
    ∧ pyCount (strOf "aaa") (strOf "aa") = 1
    ∧ (fileEntry (strOf "aa") hitAaa).count = 1 := by
  refine ⟨?_, by decide, by decide⟩
  intro hay n ns
  have h := countFrom_mul_le n ns hay 0
  simpa [pyCount] using h

/-- C4: the occurrence count of each `/search_file_list` entry is the
sum, over the whitespace-separated terms of the keyword, of the
case-insensitive (non-overlapping) substring count of the term in the
hit's body text; for bodies `wiki wiki wiki` and `wiki` with keyword
`wiki` the counts are 3 and 1. -/
theorem fileEntry_count_termwise_sum (h : Hit) (q : Str) :
    (fileEntry q h).count
        = ((pySplit q).map (fun word => pyCount (lowerStr (fileBodyText h)) (lowerStr word))).sum
    ∧ (fileEntries [hitWiki3, hitWiki1] (strOf "wiki")).map RankedEntry.count = [3, 1] :=
  ⟨rfl, by decide⟩

/-- C7: the snippet of a formatted crawler hit is the hit's highlight
fragments joined in order with the separator `" ... "`; with no
fragments (empty or absent `highlight.body`) the snippet is empty; in
particular `snippetOf [] = ""` and `snippetOf ["a", "b"] = "a ... b"`. -/
theorem snippet_join_fragments (h : Hit) :
    (formatHit h).snippet = pyJoin (strOf " ... ") (h.highlight_body.getD [])
    ∧ snippetOf [] = []
    ∧ snippetOf [strOf "a", strOf "b"] = strOf "a ... b"
    ∧ (formatHit hitNoHighlight).snippet = [] := by
  refine ⟨?_, rfl, by decide, by decide⟩
  show snippetOf (h.highlight_body.getD []) = _
  cases hl : h.highlight_body.getD [] with
  | nil => rfl
  | cons x xs => simp [snippetOf]

/-- C5: with the collaborator connected, a request whose keyword is
missing or empty gets a 400 client error from every search endpoint,
and the collaborator is not consulted: the outcome is independent of
the collaborator's behaviour. -/
theorem empty_keyword_bad_request_no_call (e e2 : Engine) (q : Option Str)
    (hq : q = none ∨ q = some []) :
    search_wiki (some e) q = .error .badRequest
    ∧ search_wiki (some e) q = search_wiki (some e2) q
    ∧ search_file_list (some e) [] = .error .badRequest
    ∧ search_file_list (some e) [] = search_file_list (some e2) []
    ∧ crawler_search (some e) q = .error .badRequest
    ∧ crawler_search (some e) q = crawler_search (some e2) q := by
  rcases hq with rfl | rfl <;>
    exact ⟨rfl, rfl, rfl, rfl, rfl, rfl⟩

theorem empty_keyword_bad_request_no_call_witness :
    search_wiki (some trivialEngine) none = .error .badRequest
    ∧ search_wiki (some trivialEngine) none = search_wiki (some failingEngine) none
    ∧ search_file_list (some trivialEngine) [] = .error .badRequest
    ∧ search_file_list (some trivialEngine) [] = search_file_list (some failingEngine) []
    ∧ crawler_search (some trivialEngine) none = .error .badRequest
    ∧ crawler_search (some trivialEngine) none = crawler_search (some failingEngine) none :=
  empty_keyword_bad_request_no_call trivialEngine failingEngine none (Or.inl rfl)

/-- C6: a hit whose `_source` lacks a `body` field is skipped rather
than failing the request: in `/search` it contributes no page
references, in `/search_file_list` it still yields its entry (its count
computed over the empty body text) with all other hits processed in
place, and both endpoints answer successfully whenever the collaborator
does. -/
theorem missing_body_hit_skipped (q : Str) (hits1 hits2 : List Hit) (h : Hit)
    (hb : h.body = none) :
    aggregatePages (hits1 ++ h :: hits2) q = aggregatePages (hits1 ++ hits2) q
    ∧ fileEntries (hits1 ++ h :: hits2) q
        = fileEntries hits1 q ++ fileEntry q h :: fileEntries hits2 q
    ∧ (fileEntry q h).count = occCount [] q
    ∧ (∀ (e : Engine) (resp : EsResponse), e (wikiQuery q) = .ok resp → ¬ q = [] →
        search_wiki (some e) (some q)
          = .ok { query := q, results := aggregatePages resp.hits q })
    ∧ (∀ (e : Engine) (resp : EsResponse), e (fileListQuery q) = .ok resp → ¬ q = [] →
        search_file_list (some e) q
          = .ok { query := q, total := (search_file_list_results resp.hits q).length,
                  results := search_file_list_results resp.hits q }) := by
  refine ⟨?_, ?_, ?_, ?_, ?_⟩
  · have e1 := foldl_hits_eq_flatMap q (hits1 ++ h :: hits2) []
    have e2 := foldl_hits_eq_flatMap q (hits1 ++ hits2) []
    have hflat : (hits1 ++ h :: hits2).flatMap (hitPages q)
        = (hits1 ++ hits2).flatMap (hitPages q) := by
      simp [List.flatMap_append, List.flatMap_cons, hitPages, hb]
    calc aggregatePages (hits1 ++ h :: hits2) q
        = ((hits1 ++ h :: hits2).flatMap (hitPages q)).foldl insertDedup [] := e1
      _ = ((hits1 ++ hits2).flatMap (hitPages q)).foldl insertDedup [] := by rw [hflat]
      _ = aggregatePages (hits1 ++ hits2) q := e2.symm
  · simp [fileEntries]
  · simp [fileEntry, fileBodyText, hb]
  · intro e resp he hq
    have hne : (q.isEmpty : Bool) = false := by
      simpa [List.isEmpty_iff] using hq
    simp [search_wiki, hne, he]
  · intro e resp he hq
    have hne : (q.isEmpty : Bool) = false := by
      simpa [List.isEmpty_iff] using hq
    simp [search_file_list, hne, he]

theorem missing_body_hit_skipped_witness :
    aggregatePages [hitNoBody] (strOf "k") = aggregatePages [] (strOf "k")
    ∧ fileEntries [hitNoBody] (strOf "k")
        = fileEntries [] (strOf "k") ++ fileEntry (strOf "k") hitNoBody :: fileEntries [] (strOf "k")
    ∧ (fileEntry (strOf "k") hitNoBody).count = occCount [] (strOf "k") := by
  have h := missing_body_hit_skipped (strOf "k") [] [] hitNoBody rfl
  exact ⟨h.1, h.2.1, h.2.2.1⟩

/-- C8 counterexample: a hit whose `_source` carries a `title` field
holding the empty string is displayed under its `_id`, not under the
present `title` field, refuting the claim that presence of the field
alone determines the displayed title. -/
theorem display_title_empty_title_cex :
    hitEmptyTitle.title = some []
    ∧ (fileEntry (strOf "wiki") hitEmptyTitle).title = strOf "X"
    ∧ strOf "X" ≠ ([] : Str) :=
  ⟨rfl, by decide, by decide⟩

/-- C8 (amended): the displayed title of a `/search_file_list` entry is
the hit's `title` field when that field is present and non-empty;
when the field is absent or holds the empty string, it is the hit's
identifier. -/
theorem display_title_nonempty_or_id (h : Hit) (q : Str) :
    ((h.title = none ∨ h.title = some []) → (fileEntry q h).title = h.id)
    ∧ (∀ t : Str, h.title = some t → ¬ t = [] → (fileEntry q h).title = t) := by
  constructor
  · rintro (ht | ht) <;> simp [fileEntry, displayTitle, ht]
  · intro t ht hne
    have hne2 : (t.isEmpty : Bool) = false := by
      simpa [List.isEmpty_iff] using hne
    simp [fileEntry, displayTitle, ht, hne2]

theorem display_title_nonempty_or_id_witness :
    (fileEntry (strOf "wiki") hitNoBody).title = hitNoBody.id
    ∧ (fileEntry (strOf "wiki") hitTitled).title = strOf "T" :=
  ⟨(display_title_nonempty_or_id hitNoBody (strOf "wiki")).1 (Or.inl rfl),
   (display_title_nonempty_or_id hitTitled (strOf "wiki")).2 (strOf "T") rfl (by decide)⟩

end WikiSearch
